import Mathlib

/-!
Shallow embedding of the form-connector submission pipeline:
the ingestion route (`src/app/api/submit/[connectorId]/route.js`, `POST`),
the in-memory rate limiter (`src/lib/rateLimit.js`, `rateLimit`),
the dispatch loop over destination configurations, and the retry loops of
the email and Slack destination handlers
(`src/lib/destinations/email.js`, `src/lib/destinations/slack.js`).

External collaborators (the database client, the payload validator, the
SendGrid / Slack network calls) are passed in as explicit parameters so the
route's control flow can be studied over all their possible behaviours.
-/

namespace FormConnector

/-- A loosely typed JavaScript scalar, used for fields such as a connector's
`is_active`, which the database may hold as a boolean, string, number,
null or leave absent (undefined). -/
inductive JsVal where
  | undef
  | null
  | bool (b : Bool)
  | num (n : Int)
  | str (s : String)
deriving DecidableEq, Repr

/-- A destination configuration as the dispatch loop consumes it:
a `type` tag and an `enabled` flag (the type-specific config blob is
only read inside the individual handlers). -/
structure DestConfig where
  type : String
  enabled : Bool
deriving DecidableEq, Repr

/-- One element of `connector.destinations`: either a configuration object,
or (legacy double-nesting) an inner array of configuration objects. -/
inductive DVal where
  | conf (c : DestConfig)
  | arr (l : List DestConfig)
deriving DecidableEq, Repr

/-- One per-destination dispatch outcome, as stored into `results`:
`{ success: true }` or `{ success: false, error, timestamp }`. -/
structure Outcome where
  success : Bool
  error : Option String
  timestamp : Option Int
deriving DecidableEq, Repr

/-- The `results` object of the route: a JavaScript object keyed by
destination type, modelled as an insertion-ordered association list. -/
abbrev Results := List (String × Outcome)

/-- JavaScript object assignment `obj[k] = v`: replace the entry at `k` if
present (objects never hold a key twice), otherwise append a new entry. -/
def setKey : Results → String → Outcome → Results
  | [], k, v => [(k, v)]
  | (k0, v0) :: rest, k, v =>
    if k0 = k then (k, v) :: rest else (k0, v0) :: setKey rest k v

/-- JavaScript object read `obj[k]`: the entry at key `k`, if any. -/
def lookupKey (rs : Results) (k : String) : Option Outcome :=
  (rs.find? (fun p => p.1 = k)).map Prod.snd

/-- The `{ success: true }` outcome recorded when a handler returns. -/
def okOutcome : Outcome :=
  { success := true, error := none, timestamp := none }

/-- The `{ success: false, error, timestamp }` outcome recorded when a
handler throws. -/
def errOutcome (msg : String) (now : Int) : Outcome :=
  { success := false, error := some msg, timestamp := some now }

/-- JavaScript `haystack.includes(needle)`: substring containment,
as infix containment on the character lists. -/
def strIncludes (s pat : String) : Bool :=
  decide (pat.data <:+: s.data)

/-- JavaScript `s.startsWith(pat)`, as prefix containment on the
character lists. -/
def strStartsWith (s pat : String) : Bool :=
  decide (pat.data <+: s.data)

/-- JavaScript `s.endsWith(pat)`, as suffix containment on the
character lists. -/
def strEndsWith (s pat : String) : Bool :=
  decide (pat.data <:+ s.data)

/-- A submitted form payload: string keys to scalar values. -/
abbrev FormData := List (String × JsVal)

/-- A destination handler as the dispatch loop calls it: it receives the
destination configuration and the form data, and either returns normally
or throws an error message. -/
abbrev Handler := DestConfig → FormData → Except String Unit

/-- State threaded through the dispatch loop: the accumulated `results`
object plus the trace of configurations actually passed to a handler. -/
structure DispatchState where
  results : Results
  calls : List DestConfig
deriving Repr

/-- One iteration of the route's `for (const destination of flatDestinations)`
loop: an inner-array element has no `type`, so no handler is found and it is
skipped; otherwise look up the handler (skip if unregistered), skip if the
configuration is disabled, and else invoke the handler inside try/catch,
recording `okOutcome` or `errOutcome` under the destination type. -/
def stepDest (H : String → Option Handler) (fd : FormData) (now : Int)
    (st : DispatchState) (d : DVal) : DispatchState :=
  match d with
  | .arr _ => st
  | .conf c =>
    match H c.type with
    | none => st
    | some h =>
      if c.enabled = false then st
      else
        match h c fd with
        | .ok _ =>
          { results := setKey st.results c.type okOutcome,
            calls := st.calls ++ [c] }
        | .error m =>
          { results := setKey st.results c.type (errOutcome m now),
            calls := st.calls ++ [c] }

/-- The dispatch loop run from a given starting state. -/
def processFrom (H : String → Option Handler) (fd : FormData) (now : Int)
    (st : DispatchState) (ds : List DVal) : DispatchState :=
  ds.foldl (stepDest H fd now) st

/-- The dispatch loop of the route, started from the empty `results`. -/
def processDVals (H : String → Option Handler) (fd : FormData) (now : Int)
    (ds : List DVal) : DispatchState :=
  processFrom H fd now ⟨[], []⟩ ds

/-- The route's legacy-format normalization: if the destination list is
non-empty and its first element is itself an array, process that inner
array instead of the outer list. -/
def normalizeDestinations : List DVal → List DVal
  | .arr l :: _ => l.map .conf
  | ds => ds

/-- Result object of `rateLimit`. -/
structure RateResult where
  allowed : Bool
  remaining : Int
  resetTime : Int
deriving DecidableEq, Repr

/-- `Math.min(...l)` for a non-empty list, with a default for the empty
list (the source guards the empty case separately). -/
def minList (dflt : Int) : List Int → Int
  | [] => dflt
  | x :: xs => xs.foldl min x

/-- The sliding-window rate limiter `rateLimit(identifier, maxRequests,
windowMs)` from `src/lib/rateLimit.js`, as a pure function of the stored
timestamp list for the identifier. Returns the result object together with
the updated stored timestamp list. -/
def rateLimit (timestamps : List Int) (now maxRequests windowMs : Int) :
    RateResult × List Int :=
  let windowStart := now - windowMs
  let validTimestamps := timestamps.filter (fun t => windowStart < t)
  let requestCount : Int := validTimestamps.length
  let allowed := decide (requestCount < maxRequests)
  let updated := if allowed then validTimestamps ++ [now] else validTimestamps
  let remaining := max 0 (maxRequests - requestCount - (if allowed then 0 else 1))
  let oldestTimestamp := if 0 < updated.length then minList now updated else now
  ({ allowed := allowed, remaining := remaining,
     resetTime := oldestTimestamp + windowMs }, updated)

/-- A connector row as the route reads it: display name, the loosely typed
`is_active` flag, and the `destinations` list. -/
structure Connector where
  name : String
  is_active : JsVal
  destinations : List DVal
deriving Repr

/-- The JSON response of the route: either the 200 success envelope
(`{ success: true, submissionId, results }`) or one of the structured
error responses built by the `apiErrors` helpers (status, `code`,
user-facing `error` message). -/
inductive Response where
  | ok (submissionId : Int) (results : Results)
  | err (status : Int) (code : String) (message : String)
deriving Repr

/-- The HTTP status of a response (`NextResponse.json` defaults to 200). -/
def respStatus : Response → Int
  | .ok _ _ => 200
  | .err s _ _ => s

/-- Inputs of one `POST /api/submit/[connectorId]` request: the parsed form
data, the current time, the rate limiter's stored timestamps for this
connector, and the behaviour of the external collaborators the route calls
(`validateSubmission`, the connector lookup, the submission insert) together
with the `destinationHandlers` registry. -/
structure PostDeps where
  formData : FormData
  now : Int
  rlState : List Int
  validate : FormData → Except String Unit
  connector : Option Connector
  insertResult : Except String Int
  handlers : String → Option Handler

/-- Observable result of one request: the JSON response, how many times the
submission-insert operation was invoked, the rate limiter's stored
timestamps after the request, and the handler-invocation trace. -/
structure PostResult where
  response : Response
  inserts : Nat
  rlState : List Int
  calls : List DestConfig
deriving Repr

/-- The ingestion route `POST` from
`src/app/api/submit/[connectorId]/route.js`: rate-limit gate (100 requests
per 3600000 ms), validation gate, connector lookup, strict
`is_active !== true` gate, submission insert, then the dispatch loop over
the normalized destination list and the 200 success envelope. -/
def POST (d : PostDeps) : PostResult :=
  let rl := rateLimit d.rlState d.now 100 3600000
  if rl.1.allowed = false then
    { response := .err 429 "RATE_LIMIT_EXCEEDED"
        "Rate limit exceeded. Please try again later.",
      inserts := 0, rlState := rl.2, calls := [] }
  else
    match d.validate d.formData with
    | .error m =>
      { response := .err 400 "VALIDATION_ERROR" m,
        inserts := 0, rlState := rl.2, calls := [] }
    | .ok _ =>
      match d.connector with
      | none =>
        { response := .err 404 "NOT_FOUND" "Connector not found",
          inserts := 0, rlState := rl.2, calls := [] }
      | some conn =>
        if conn.is_active = JsVal.bool true then
          match d.insertResult with
          | .error _ =>
            { response := .err 500 "SUBMISSION_STORAGE_ERROR"
                "Failed to store submission",
              inserts := 1, rlState := rl.2, calls := [] }
          | .ok subId =>
            let st := processDVals d.handlers d.formData d.now
              (normalizeDestinations conn.destinations)
            { response := .ok subId st.results,
              inserts := 1, rlState := rl.2, calls := st.calls }
        else
          { response := .err 403 "CONNECTOR_INACTIVE"
              "This connector is currently inactive",
            inserts := 0, rlState := rl.2, calls := [] }

/-- The exponential backoff delay used between attempts `n` and `n+1` in
the handler retry loops: `Math.pow(2, attempt - 1) * 1000` milliseconds. -/
def backoffDelay (attempt : Nat) : Int :=
  2 ^ (attempt - 1) * 1000

/-- The retry loop of `handleEmail` (`src/lib/destinations/email.js`).
`send n` is the behaviour of `sendEmailOnce` on the n-th (1-based) attempt.
The loop runs `attempt = 1 .. maxRetries`, returning the successful attempt
number, sleeping `backoffDelay attempt` between failed attempts, and after
the loop throws the exhaustion message naming the attempt count. Returns
the result together with the list of sleeps performed. -/
def handleEmailGo (send : Nat → Except String Unit) (maxRetries : Nat)
    (attempt attempts : Nat) (lastErr : Option String) (delays : List Int) :
    Except String Nat × List Int :=
  if _h : maxRetries < attempt then
    (.error ("Failed to send email after " ++ toString attempts ++
      " attempt(s). Last error: " ++ lastErr.getD "Unknown error"), delays)
  else
    match send attempt with
    | .ok _ => (.ok attempt, delays)
    | .error m =>
      let delays2 :=
        if attempt < maxRetries then delays ++ [backoffDelay attempt] else delays
      handleEmailGo send maxRetries (attempt + 1) attempt (some m) delays2
termination_by maxRetries + 1 - attempt
decreasing_by omega

/-- `handleEmail(destination, formData, connector, maxRetries = 3)`:
the retry wrapper entered at attempt 1 with no recorded error. -/
def handleEmail (send : Nat → Except String Unit) (maxRetries : Nat := 3) :
    Except String Nat × List Int :=
  handleEmailGo send maxRetries 1 0 none []

/-- The downstream response observed by one Slack send attempt: either a
2xx `ok` response, or an HTTP error with status, status text, body text and
the optional `Retry-After` header. -/
inductive FetchResp where
  | ok
  | err (status : Nat) (statusText : String) (errorText : String)
      (retryAfter : Option String)
deriving Repr

/-- JavaScript `a || b` on an optional header value, where `null` and the
empty string are falsy: `response.headers.get(..) || dflt`. -/
def jsOrDefault (a : Option String) (dflt : String) : String :=
  match a with
  | some s => if s = "" then dflt else s
  | none => dflt

/-- The error message `handleSlack` throws for a non-ok downstream
response (404 / 403 / 429 / other), or `none` when the response is ok. -/
def slackErrorMsg : FetchResp → Option String
  | .ok => none
  | .err 404 _ _ _ =>
    some ("Slack webhook not found. Please check that the webhook URL is " ++
      "correct and the webhook is still active.")
  | .err 403 _ _ _ =>
    some ("Slack webhook access denied. The webhook may have been revoked " ++
      "or the app removed.")
  | .err 429 _ _ ra =>
    some ("Slack rate limit exceeded. Retry after " ++ jsOrDefault ra "60" ++
      " seconds.")
  | .err status statusText errorText _ =>
    some ("Slack API error: " ++ toString status ++ " " ++ statusText ++
      ". " ++ errorText)

/-- The fatal-error test of `handleSlack`'s catch block: configuration
errors are rethrown immediately instead of retried. -/
def slackFatal (m : String) : Bool :=
  strIncludes m "not found" || strIncludes m "access denied" ||
    strIncludes m "Invalid Slack webhook"

/-- The retry loop of `handleSlack` (`src/lib/destinations/slack.js`).
`fetch n` is the downstream response of the n-th (1-based) attempt.
On failure the catch block rethrows configuration errors immediately, and
otherwise, when another attempt remains, sleeps 60000 ms if the message
mentions a rate limit and `backoffDelay attempt` otherwise. Returns the
result, the list of sleeps performed, and the number of outbound calls. -/
def handleSlackGo (fetch : Nat → FetchResp) (maxRetries : Nat)
    (attempt attempts : Nat) (lastErr : Option String) (delays : List Int)
    (calls : Nat) : Except String Unit × List Int × Nat :=
  if _h : maxRetries < attempt then
    (.error ("Failed to send Slack message after " ++ toString attempts ++
      " attempt(s). Last error: " ++ lastErr.getD "Unknown error"),
      delays, calls)
  else
    match slackErrorMsg (fetch attempt) with
    | none => (.ok (), delays, calls + 1)
    | some m =>
      if slackFatal m then (.error m, delays, calls + 1)
      else if attempt < maxRetries then
        let d := if strIncludes m "rate limit" then (60000 : Int)
          else backoffDelay attempt
        handleSlackGo fetch maxRetries (attempt + 1) attempt (some m)
          (delays ++ [d]) (calls + 1)
      else
        handleSlackGo fetch maxRetries (attempt + 1) attempt (some m)
          delays (calls + 1)
termination_by maxRetries + 1 - attempt
decreasing_by all_goals omega

/-- JavaScript `config.webhookUrl || config.webhook_url` followed by the
`if (!webhookUrl)` falsiness test: the first non-empty value, if any. -/
def jsOrStr (a b : Option String) : Option String :=
  match a with
  | some s => if s = "" then (match b with
      | some t => if t = "" then none else some t
      | none => none) else some s
  | none =>
    match b with
    | some t => if t = "" then none else some t
    | none => none

/-- `handleSlack(destination, formData, connector, maxRetries = 3)`:
resolve the webhook URL from its two config aliases, require it, check the
URL format guard (`startsWith('https://') && includes('slack.com')`), and
then run the retry loop. Returns the result, the sleeps performed, and the
number of outbound webhook calls. -/
def handleSlack (webhookUrl webhook_url : Option String)
    (fetch : Nat → FetchResp) (maxRetries : Nat := 3) :
    Except String Unit × List Int × Nat :=
  match jsOrStr webhookUrl webhook_url with
  | none => (.error "Slack webhook URL is required in destination config", [], 0)
  | some url =>
    if strStartsWith url "https://" = false || strIncludes url "slack.com" = false then
      (.error ("Invalid Slack webhook URL format. Please provide a valid " ++
        "Slack webhook URL."), [], 0)
    else
      handleSlackGo fetch maxRetries 1 0 none [] 0

/-- Follows the spec's words, for comparison with the code's URL guard:
the host component of an `https://` URL (the part after the scheme, up to
the first `/` or `?`). -/
def urlHost (url : String) : String :=
  let rest := if strStartsWith url "https://" then url.data.drop 8 else url.data
  String.mk (rest.takeWhile (fun ch => ch ≠ '/' && ch ≠ '?'))

/-- Follows the spec's words: a host belongs to Slack's domain when it is
`slack.com` or a subdomain of it. -/
def hostInSlackDomain (host : String) : Bool :=
  host = "slack.com" || strEndsWith host ".slack.com"

/-! ### General lemmas about the dispatch loop -/

/-- The configuration a loop element actually dispatches to: `some c` when
the element is a configuration object whose type has a registered handler
and whose `enabled` flag is set, `none` when the element is skipped. -/
def relevantConf (H : String → Option Handler) : DVal → Option DestConfig
  | .conf c => if (H c.type).isSome && c.enabled then some c else none
  | .arr _ => none

/-- Whether a loop element dispatches to a handler under type `t`. -/
def relevantAt (H : String → Option Handler) (t : String) (d : DVal) : Bool :=
  match relevantConf H d with
  | some c => c.type = t
  | none => false

/-- The outcome recorded for a dispatched configuration: `okOutcome` when
its handler returns, `errOutcome` with the thrown message otherwise. -/
def runConf (H : String → Option Handler) (fd : FormData) (now : Int)
    (c : DestConfig) : Outcome :=
  match H c.type with
  | some h =>
    match h c fd with
    | .ok _ => okOutcome
    | .error m => errOutcome m now
  | none => okOutcome

theorem stepDest_eq (H : String → Option Handler) (fd : FormData) (now : Int)
    (st : DispatchState) (d : DVal) :
    stepDest H fd now st d =
      match relevantConf H d with
      | none => st
      | some c =>
        { results := setKey st.results c.type (runConf H fd now c),
          calls := st.calls ++ [c] } := by
  cases d with
  | arr l => rfl
  | conf c =>
    cases hH : H c.type with
    | none => simp [stepDest, relevantConf, hH]
    | some h =>
      by_cases hen : c.enabled
      · cases hr : h c fd <;>
          simp [stepDest, relevantConf, runConf, hH, hen, hr]
      · rw [Bool.not_eq_true] at hen
        simp [stepDest, relevantConf, hH, hen]

theorem processFrom_cons (H : String → Option Handler) (fd : FormData)
    (now : Int) (st : DispatchState) (d : DVal) (ds : List DVal) :
    processFrom H fd now st (d :: ds) =
      processFrom H fd now (stepDest H fd now st d) ds := rfl

theorem processFrom_append (H : String → Option Handler) (fd : FormData)
    (now : Int) (st : DispatchState) (l1 l2 : List DVal) :
    processFrom H fd now st (l1 ++ l2) =
      processFrom H fd now (processFrom H fd now st l1) l2 :=
  List.foldl_append _ _ _ _

theorem lookupKey_setKey (rs : Results) (k j : String) (v : Outcome) :
    lookupKey (setKey rs k v) j = if j = k then some v else lookupKey rs j := by
  induction rs with
  | nil =>
    by_cases h : j = k
    · simp [setKey, lookupKey, h]
    · have hkj : ¬(k = j) := fun hh => h hh.symm
      simp [setKey, lookupKey, h, hkj]
  | cons p rest ih =>
    obtain ⟨k0, v0⟩ := p
    by_cases h0 : k0 = k
    · subst h0
      by_cases h : j = k0
      · simp [setKey, lookupKey, h]
      · have hkj : ¬(k0 = j) := fun hh => h hh.symm
        simp [setKey, lookupKey, h, hkj]
    · by_cases h : j = k0
      · have hjk : ¬(j = k) := fun hc => h0 (h.symm.trans hc)
        have hk0j : (k0 = j) := h.symm
        simp [setKey, lookupKey, h0, hjk, hk0j]
      · have hk0j : ¬(k0 = j) := fun hh => h hh.symm
        simpa [setKey, h0, lookupKey, hk0j] using ih

theorem mem_keys_setKey (rs : Results) (k j : String) (v : Outcome) :
    j ∈ (setKey rs k v).map Prod.fst ↔ j ∈ rs.map Prod.fst ∨ j = k := by
  induction rs with
  | nil => simp [setKey]
  | cons p rest ih =>
    obtain ⟨k0, v0⟩ := p
    by_cases h0 : k0 = k
    · subst h0
      simp [setKey]
      tauto
    · simp [setKey, h0, ih]
      tauto

theorem nodup_keys_setKey (rs : Results) (k : String) (v : Outcome)
    (h : (rs.map Prod.fst).Nodup) : ((setKey rs k v).map Prod.fst).Nodup := by
  induction rs with
  | nil => simp [setKey]
  | cons p rest ih =>
    obtain ⟨k0, v0⟩ := p
    simp only [List.map_cons, List.nodup_cons] at h
    by_cases h0 : k0 = k
    · subst h0
      simpa [setKey] using h
    · simp only [setKey, h0, if_false, List.map_cons, List.nodup_cons]
      refine ⟨fun hmem => ?_, ih h.2⟩
      rcases (mem_keys_setKey rest k k0 v).mp hmem with hin | heq
      · exact h.1 hin
      · exact h0 heq

theorem processFrom_calls (H : String → Option Handler) (fd : FormData)
    (now : Int) (ds : List DVal) : ∀ st : DispatchState,
    (processFrom H fd now st ds).calls =
      st.calls ++ ds.filterMap (relevantConf H) := by
  induction ds with
  | nil => intro st; simp [processFrom]
  | cons d tl ih =>
    intro st
    rw [processFrom_cons, ih, stepDest_eq]
    cases hr : relevantConf H d with
    | none => simp [List.filterMap_cons, hr]
    | some c => simp [List.filterMap_cons, hr]

theorem processFrom_lookup_isSome (H : String → Option Handler)
    (fd : FormData) (now : Int) (t : String) (ds : List DVal) :
    ∀ st : DispatchState,
    (lookupKey (processFrom H fd now st ds).results t).isSome =
      ((lookupKey st.results t).isSome || ds.any (relevantAt H t)) := by
  induction ds with
  | nil => intro st; simp [processFrom]
  | cons d tl ih =>
    intro st
    rw [processFrom_cons, ih, stepDest_eq]
    cases hr : relevantConf H d with
    | none => simp [List.any_cons, relevantAt, hr]
    | some c =>
      by_cases ht : t = c.type
      · simp [List.any_cons, relevantAt, hr, lookupKey_setKey, ht]
      · have htc : ¬(c.type = t) := fun hh => ht hh.symm
        simp [List.any_cons, relevantAt, hr, lookupKey_setKey, ht, htc]

theorem processFrom_nodup_keys (H : String → Option Handler) (fd : FormData)
    (now : Int) (ds : List DVal) : ∀ st : DispatchState,
    (st.results.map Prod.fst).Nodup →
    ((processFrom H fd now st ds).results.map Prod.fst).Nodup := by
  induction ds with
  | nil => intro st h; simpa [processFrom] using h
  | cons d tl ih =>
    intro st h
    rw [processFrom_cons]
    refine ih _ ?_
    rw [stepDest_eq]
    cases hr : relevantConf H d with
    | none => simpa using h
    | some c => exact nodup_keys_setKey _ _ _ h

/-! ### Claim theorems -/

/-- C1. Dispatch isolation: for every destination list split as
`pre ++ conf c :: post` where `c` is enabled and its type has a registered
handler, if the handler throws then the loop still continues over the whole
remainder `post` from the state in which the failing destination's entry is
`{ success := false, error := the thrown message, timestamp := now }`
(non-empty whenever the thrown message is), and if the handler returns
normally the loop continues with the entry `{ success := true }`. -/
theorem dispatch_isolation (H : String → Option Handler) (fd : FormData)
    (now : Int) (pre post : List DVal) (c : DestConfig) (h : Handler)
    (hH : H c.type = some h) (hen : c.enabled = true) :
    (∀ msg : String, h c fd = .error msg →
      processDVals H fd now (pre ++ DVal.conf c :: post) =
        processFrom H fd now
          { results := setKey (processDVals H fd now pre).results c.type
              (errOutcome msg now),
            calls := (processDVals H fd now pre).calls ++ [c] } post
      ∧ errOutcome msg now =
          { success := false, error := some msg, timestamp := some now }
      ∧ (msg ≠ "" → (errOutcome msg now).error ≠ some ""))
    ∧ (h c fd = .ok () →
      processDVals H fd now (pre ++ DVal.conf c :: post) =
        processFrom H fd now
          { results := setKey (processDVals H fd now pre).results c.type
              okOutcome,
            calls := (processDVals H fd now pre).calls ++ [c] } post
      ∧ okOutcome = { success := true, error := none, timestamp := none }) := by
  constructor
  · intro msg hfail
    refine ⟨?_, rfl, fun hne hc => hne (Option.some.inj hc)⟩
    unfold processDVals
    rw [processFrom_append, processFrom_cons]
    simp [stepDest, hH, hen, hfail]
  · intro hok
    refine ⟨?_, rfl⟩
    unfold processDVals
    rw [processFrom_append, processFrom_cons]
    simp [stepDest, hH, hen, hok]

/-- Concrete handler registry used to instantiate `dispatch_isolation`:
type `a` throws, type `b` succeeds. -/
def isoH : String → Option Handler := fun t =>
  if t = "a" then some (fun _ _ => Except.error "boom")
  else if t = "b" then some (fun _ _ => Except.ok ()) else none

theorem dispatch_isolation_witness :
    (processDVals isoH [] 5 ([] ++ DVal.conf ⟨"a", true⟩ :: [DVal.conf ⟨"b", true⟩]) =
      processFrom isoH [] 5
        { results := setKey (processDVals isoH [] 5 []).results "a"
            (errOutcome "boom" 5),
          calls := (processDVals isoH [] 5 []).calls ++ [⟨"a", true⟩] }
        [DVal.conf ⟨"b", true⟩]
    ∧ errOutcome "boom" 5 =
        { success := false, error := some "boom", timestamp := some 5 }
    ∧ (("boom" : String) ≠ "" → (errOutcome "boom" 5).error ≠ some "")) :=
  (dispatch_isolation isoH [] 5 [] [DVal.conf ⟨"b", true⟩] ⟨"a", true⟩
    (fun _ _ => Except.error "boom") rfl rfl).1 "boom" rfl

/-- C2 (counterexample). In the list
`[{type: email, enabled: false}, {type: email, enabled: true}]` the first
configuration is disabled, yet after dispatch the results mapping does have
an entry at its type `email` (produced by the second configuration), so a
disabled configuration's type can have an outcome entry. -/
theorem outcome_coverage_counterexample :
    (DestConfig.mk "email" false).enabled = false
    ∧ (lookupKey (processDVals
          (fun t => if t = "email" then some (fun _ _ => Except.ok ()) else none)
          [] 0
          [DVal.conf ⟨"email", false⟩, DVal.conf ⟨"email", true⟩]).results
        "email").isSome = true :=
  ⟨rfl, rfl⟩

/-- C2 (amended). After the dispatch loop, the results mapping has an entry
at type `t` exactly when the list contains an enabled configuration of type
`t` whose type has a registered handler; the handlers invoked are exactly
the enabled, registered configurations in list order (so disabled or
unregistered configurations never reach their handler); and the results
mapping holds at most one entry per type. -/
theorem outcome_coverage_amended (H : String → Option Handler) (fd : FormData)
    (now : Int) (ds : List DVal) (t : String) :
    (lookupKey (processDVals H fd now ds).results t).isSome =
      ds.any (relevantAt H t)
    ∧ (processDVals H fd now ds).calls = ds.filterMap (relevantConf H)
    ∧ ((processDVals H fd now ds).results.map Prod.fst).Nodup := by
  refine ⟨?_, ?_, ?_⟩
  · simpa [processDVals, lookupKey] using
      processFrom_lookup_isSome H fd now t ds ⟨[], []⟩
  · simpa [processDVals] using processFrom_calls H fd now ds ⟨[], []⟩
  · exact processFrom_nodup_keys H fd now ds ⟨[], []⟩ (by simp)

/-- C6. Dispatching the legacy double-nested list `[[c1, ..., cn]]`
produces exactly the same results mapping as dispatching the flat list
`[c1, ..., cn]`, for every configuration list, payload and handler
registry. -/
theorem double_nesting_equiv (H : String → Option Handler) (fd : FormData)
    (now : Int) (cs : List DestConfig) :
    (processDVals H fd now (normalizeDestinations [DVal.arr cs])).results =
      (processDVals H fd now (normalizeDestinations (cs.map DVal.conf))).results := by
  cases cs with
  | nil => rfl
  | cons a tl => rfl

theorem foldl_min_le (l : List Int) : ∀ a now : Int, a ≤ now →
    (∀ x ∈ l, x ≤ now) → l.foldl min a ≤ now := by
  induction l with
  | nil => intro a now ha _; simpa using ha
  | cons x tl ih =>
    intro a now ha hl
    exact ih (min a x) now (le_trans (min_le_left a x) ha)
      (fun y hy => hl y (List.mem_cons_of_mem x hy))

theorem minList_append_last (l : List Int) (now : Int)
    (h : ∀ x ∈ l, x ≤ now) : minList now (l ++ [now]) = minList now l := by
  cases l with
  | nil => rfl
  | cons a tl =>
    simp only [minList, List.cons_append, List.foldl_append, List.foldl_cons,
      List.foldl_nil]
    exact min_eq_left (foldl_min_le tl a now (h a (List.mem_cons_self a tl))
      (fun y hy => h y (List.mem_cons_of_mem a hy)))

/-- C3 (counterexample). A first request on an empty window with
`maxRequests = 100` is admitted with `remaining = 100`, not the
`maxRequests − count − 1 = 99` the claim asserts. -/
theorem rate_limit_check_counterexample :
    (rateLimit [] 10000000 100 3600000).1.allowed = true
    ∧ (rateLimit [] 10000000 100 3600000).1.remaining = 100
    ∧ ¬((100 : Int) = 100 - 0 - 1) :=
  ⟨rfl, rfl, by decide⟩

/-- C3 (amended). `rateLimit` prunes timestamps not newer than
`now − windowMs`; if the surviving count is below `maxRequests` it appends
`now` and returns `allowed = true` with `remaining = maxRequests − count`
(without the claim's extra `− 1`), otherwise `allowed = false` with
`remaining = 0` and no append; `resetTime` is the oldest surviving
timestamp plus `windowMs`, defaulting to `now + windowMs` on an empty
surviving window. -/
theorem rate_limit_check_amended (ts : List Int) (now maxR wMs : Int)
    (hts : ∀ t ∈ ts, t ≤ now) :
    (rateLimit ts now maxR wMs).1.allowed =
        decide (((ts.filter (fun t => now - wMs < t)).length : Int) < maxR)
    ∧ ((rateLimit ts now maxR wMs).1.allowed = true →
        (rateLimit ts now maxR wMs).2 =
            ts.filter (fun t => now - wMs < t) ++ [now]
        ∧ (rateLimit ts now maxR wMs).1.remaining =
            maxR - (ts.filter (fun t => now - wMs < t)).length)
    ∧ ((rateLimit ts now maxR wMs).1.allowed = false →
        (rateLimit ts now maxR wMs).2 = ts.filter (fun t => now - wMs < t)
        ∧ (rateLimit ts now maxR wMs).1.remaining = 0)
    ∧ (rateLimit ts now maxR wMs).1.resetTime =
        minList now (ts.filter (fun t => now - wMs < t)) + wMs := by
  have hs : ∀ x ∈ ts.filter (fun t => now - wMs < t), x ≤ now :=
    fun x hx => hts x (List.mem_of_mem_filter hx)
  by_cases hA : ((ts.filter (fun t => now - wMs < t)).length : Int) < maxR
  · refine ⟨by simp [rateLimit, hA], fun _ => ⟨by simp [rateLimit, hA], ?_⟩,
      fun hc => ?_, ?_⟩
    · simp only [rateLimit, hA, decide_eq_true_eq, if_true, decide_True]
      omega
    · simp [rateLimit, hA] at hc
    · simp only [rateLimit, hA, if_true, decide_True]
      rw [if_pos (by simp), minList_append_last _ _ hs]
  · refine ⟨by simp [rateLimit, hA], fun hc => ?_,
      fun _ => ⟨by simp [rateLimit, hA], ?_⟩, ?_⟩
    · simp [rateLimit, hA] at hc
    · simp only [rateLimit, hA, decide_eq_true_eq, if_false, decide_False]
      omega
    · simp only [rateLimit, hA, if_false, decide_False]
      cases hsf : ts.filter (fun t => now - wMs < t) with
      | nil => simp [minList]
      | cons a tl => simp [minList]

theorem rate_limit_check_amended_witness :
    (rateLimit [9000000, 9500000] 10000000 100 3600000).1.allowed =
        decide (((List.filter (fun t => 10000000 - 3600000 < t)
          [9000000, 9500000]).length : Int) < 100)
    ∧ ((rateLimit [9000000, 9500000] 10000000 100 3600000).1.allowed = true →
        (rateLimit [9000000, 9500000] 10000000 100 3600000).2 =
            List.filter (fun t => 10000000 - 3600000 < t)
              [9000000, 9500000] ++ [10000000]
        ∧ (rateLimit [9000000, 9500000] 10000000 100 3600000).1.remaining =
            100 - (List.filter (fun t => 10000000 - 3600000 < t)
              [9000000, 9500000]).length)
    ∧ ((rateLimit [9000000, 9500000] 10000000 100 3600000).1.allowed = false →
        (rateLimit [9000000, 9500000] 10000000 100 3600000).2 =
            List.filter (fun t => 10000000 - 3600000 < t) [9000000, 9500000]
        ∧ (rateLimit [9000000, 9500000] 10000000 100 3600000).1.remaining = 0)
    ∧ (rateLimit [9000000, 9500000] 10000000 100 3600000).1.resetTime =
        minList 10000000 (List.filter (fun t => 10000000 - 3600000 < t)
          [9000000, 9500000]) + 3600000 :=
  rate_limit_check_amended [9000000, 9500000] 10000000 100 3600000 (by decide)

/-- C4. A request that passes the rate-limit and validation gates and finds
a connector whose active flag is the boolean `false` receives the 403
`CONNECTOR_INACTIVE` error and performs no submission insert. -/
theorem inactive_atomicity (d : PostDeps) (conn : Connector)
    (hA : (rateLimit d.rlState d.now 100 3600000).1.allowed = true)
    (hV : d.validate d.formData = .ok ())
    (hC : d.connector = some conn)
    (hI : conn.is_active = JsVal.bool false) :
    (POST d).response =
        .err 403 "CONNECTOR_INACTIVE" "This connector is currently inactive"
    ∧ (POST d).inserts = 0 := by
  have hne : ¬(conn.is_active = JsVal.bool true) := by simp [hI]
  constructor <;> simp [POST, hA, hV, hC, hne]

/-- Concrete request hitting an inactive connector. -/
def inactiveDeps : PostDeps :=
  { formData := [], now := 10, rlState := [],
    validate := fun _ => .ok (),
    connector := some { name := "c", is_active := .bool false, destinations := [] },
    insertResult := .ok 1,
    handlers := fun _ => none }

theorem inactive_atomicity_witness :
    (POST inactiveDeps).response =
        .err 403 "CONNECTOR_INACTIVE" "This connector is currently inactive"
    ∧ (POST inactiveDeps).inserts = 0 :=
  inactive_atomicity inactiveDeps
    { name := "c", is_active := .bool false, destinations := [] } rfl rfl rfl rfl

/-- C10. The active gate is a strict comparison with the boolean `true`:
any other `is_active` value (absent, null, the string `true`, the number 1,
the boolean false, ...) yields the 403 `CONNECTOR_INACTIVE` error with no
insert, and the boolean `true` proceeds to the insert. -/
theorem strict_active_check (d : PostDeps) (conn : Connector)
    (hA : (rateLimit d.rlState d.now 100 3600000).1.allowed = true)
    (hV : d.validate d.formData = .ok ())
    (hC : d.connector = some conn) :
    (conn.is_active ≠ JsVal.bool true →
        (POST d).response =
            .err 403 "CONNECTOR_INACTIVE" "This connector is currently inactive"
        ∧ (POST d).inserts = 0)
    ∧ (conn.is_active = JsVal.bool true → (POST d).inserts = 1) := by
  constructor
  · intro hne
    constructor <;> simp [POST, hA, hV, hC, hne]
  · intro heq
    cases hins : d.insertResult <;> simp [POST, hA, hV, hC, heq, hins]

/-- Concrete request whose connector stores the string `"true"` instead of
the boolean `true`. -/
def strActiveDeps : PostDeps :=
  { formData := [], now := 10, rlState := [],
    validate := fun _ => .ok (),
    connector := some { name := "c", is_active := .str "true", destinations := [] },
    insertResult := .ok 1,
    handlers := fun _ => none }

theorem strict_active_check_witness :
    (POST strActiveDeps).response =
        .err 403 "CONNECTOR_INACTIVE" "This connector is currently inactive"
    ∧ (POST strActiveDeps).inserts = 0 :=
  (strict_active_check strActiveDeps
    { name := "c", is_active := .str "true", destinations := [] }
    rfl rfl rfl).1 (by decide)

/-- C9. The rate limiter runs first and appends the request's timestamp as
soon as the request is admitted, so an admitted request that then fails
validation, connector lookup, the active gate, or the insert still leaves
its timestamp in the connector's window (one slot of the 100-per-hour
quota consumed) while the response is an error. -/
theorem rate_slot_consumed (d : PostDeps)
    (hA : (rateLimit d.rlState d.now 100 3600000).1.allowed = true)
    (hFail : (∃ m, d.validate d.formData = Except.error m)
      ∨ d.connector = none
      ∨ (∃ conn, d.connector = some conn ∧ conn.is_active ≠ JsVal.bool true)
      ∨ (∃ m, d.insertResult = Except.error m)) :
    (POST d).rlState =
        d.rlState.filter (fun t => d.now - 3600000 < t) ++ [d.now]
    ∧ respStatus (POST d).response ≠ 200 := by
  have hcnt : ((d.rlState.filter (fun t => d.now - 3600000 < t)).length : Int) < 100 := by
    by_contra hge
    simp [rateLimit, hge] at hA
  have hupd : (rateLimit d.rlState d.now 100 3600000).2 =
      d.rlState.filter (fun t => d.now - 3600000 < t) ++ [d.now] := by
    simp [rateLimit, hcnt]
  cases hv : d.validate d.formData with
  | error m =>
    constructor <;> simp [POST, hA, hv, hupd, respStatus]
  | ok u =>
    cases u
    cases hc : d.connector with
    | none =>
      constructor <;> simp [POST, hA, hv, hc, hupd, respStatus]
    | some conn =>
      by_cases hia : conn.is_active = JsVal.bool true
      · cases hins : d.insertResult with
        | error m =>
          constructor <;> simp [POST, hA, hv, hc, hia, hins, hupd, respStatus]
        | ok sid =>
          exfalso
          rcases hFail with ⟨m, hm⟩ | hn | ⟨c2, hc2, hia2⟩ | ⟨m, hm⟩
          · rw [hv] at hm; cases hm
          · rw [hc] at hn; cases hn
          · rw [hc] at hc2
            exact hia2 ((Option.some.inj hc2) ▸ hia)
          · rw [hins] at hm; cases hm
      · constructor <;> simp [POST, hA, hv, hc, hia, hupd, respStatus]

/-- Concrete admitted request that then fails payload validation. -/
def slotDeps : PostDeps :=
  { formData := [], now := 50, rlState := [],
    validate := fun _ => .error "Form data must be a valid object",
    connector := none, insertResult := .ok 1, handlers := fun _ => none }

theorem rate_slot_consumed_witness :
    (POST slotDeps).rlState =
        List.filter (fun t => 50 - 3600000 < t) ([] : List Int) ++ [50]
    ∧ respStatus (POST slotDeps).response ≠ 200 :=
  rate_slot_consumed slotDeps rfl (Or.inl ⟨_, rfl⟩)

/-- The destination handler the route registers for `email`, with
`sendEmailOnce` failing on every attempt: `handleEmail` at its default
`maxRetries = 3`, coerced to the handler shape (a success value is
discarded, a thrown message propagates). -/
def emailHandlerAllFail : Handler := fun _ _ =>
  (handleEmail (fun _ => Except.error "boom") 3).1.map (fun _ => ())

/-- Concrete connector with one enabled `email` destination. -/
def emailFailConn : Connector :=
  { name := "c", is_active := .bool true,
    destinations := [DVal.conf ⟨"email", true⟩] }

/-- Concrete request: one enabled `email` destination whose handler
exhausts its retries. -/
def emailFailDeps : PostDeps :=
  { formData := [], now := 500, rlState := [],
    validate := fun _ => .ok (),
    connector := some emailFailConn,
    insertResult := .ok 7,
    handlers := fun t => if t = "email" then some emailHandlerAllFail else none }

/-- C5. When `sendEmailOnce` fails on every attempt, `handleEmail` at its
default `maxRetries = 3` makes three attempts (sleeping 1000 ms and
2000 ms in between) and throws a message saying `after 3 attempt(s)` -
not the `after 4 attempt(s)` of the claim and of the handler's own
Retry Strategy docstring - while the stored outcome carries exactly that
message and the HTTP envelope is still a 200 success. -/
theorem retry_exhaustion_attempts :
    handleEmail (fun _ => Except.error "boom") 3 =
      (Except.error "Failed to send email after 3 attempt(s). Last error: boom",
        [1000, 2000])
    ∧ strIncludes "Failed to send email after 3 attempt(s). Last error: boom"
        "after 4 attempt(s)" = false
    ∧ strIncludes "Failed to send email after 3 attempt(s). Last error: boom"
        "after 3 attempt(s)" = true
    ∧ (POST emailFailDeps).response =
        Response.ok 7 [("email",
          errOutcome "Failed to send email after 3 attempt(s). Last error: boom" 500)]
    ∧ respStatus (POST emailFailDeps).response = 200 := by
  have h1 : handleEmail (fun _ => Except.error "boom") 3 =
      (Except.error "Failed to send email after 3 attempt(s). Last error: boom",
        [1000, 2000]) := by
    simp [handleEmail, handleEmailGo, backoffDelay]
    rfl
  have h1a : emailHandlerAllFail ⟨"email", true⟩ [] =
      Except.error "Failed to send email after 3 attempt(s). Last error: boom" := by
    simp [emailHandlerAllFail, h1, Except.map]
  have h4 : (POST emailFailDeps).response =
      Response.ok 7 [("email",
        errOutcome "Failed to send email after 3 attempt(s). Last error: boom" 500)] := by
    simp [POST, emailFailDeps, emailFailConn, rateLimit, normalizeDestinations,
      processDVals, processFrom, stepDest, h1a, setKey]
  exact ⟨h1, by decide, by decide, h4, by rw [h4]; rfl⟩

/-- The error message a 429 downstream response turns into. -/
def slackRateLimitMsg (ra : Option String) : String :=
  "Slack rate limit exceeded. Retry after " ++ jsOrDefault ra "60" ++ " seconds."

theorem slackErrorMsg_429 (st et : String) (ra : Option String) :
    slackErrorMsg (.err 429 st et ra) = some (slackRateLimitMsg ra) := rfl

theorem strIncludes_rateLimitMsg (ra : Option String) :
    strIncludes (slackRateLimitMsg ra) "rate limit" = true := by
  unfold strIncludes slackRateLimitMsg
  rw [decide_eq_true_eq]
  have h1 : ("rate limit").data <:+:
      ("Slack rate limit exceeded. Retry after ").data := by decide
  have h2 : ("Slack rate limit exceeded. Retry after ").data <+:
      ("Slack rate limit exceeded. Retry after " ++ jsOrDefault ra "60" ++
        " seconds.").data := by
    rw [String.data_append, String.data_append, List.append_assoc]
    exact List.prefix_append _ _
  exact h1.trans h2.isInfix

/-- C7 (counterexample). With a downstream that answers 429 with an
explicit `Retry-After: 5` hint on every attempt, the handler sleeps
60000 ms before each retry, not the signalled 5 seconds = 5000 ms. -/
theorem retry_after_counterexample :
    (handleSlack (some "https://hooks.slack.com/services/x") none
        (fun _ => FetchResp.err 429 "Too Many Requests" "" (some "5")) 3).2.1 =
      [60000, 60000]
    ∧ ((60000 : Int) ≠ 5 * 1000) := by
  constructor
  · simp [handleSlack, jsOrStr, strStartsWith, strIncludes, handleSlackGo,
      slackErrorMsg, slackFatal, jsOrDefault, backoffDelay]
    decide
  · decide

/-- C7 (amended). When an attempt fails with a 429 rate-limit response and
another attempt remains, the handler sleeps a fixed 60000 ms before the
next attempt - independent of the signalled `Retry-After` value, which
only appears in the recorded error message. -/
theorem retry_after_amended (fetch : Nat → FetchResp)
    (mr attempt attempts : Nat) (lastErr : Option String) (delays : List Int)
    (calls : Nat) (st et : String) (ra : Option String)
    (h1 : attempt < mr) (h2 : fetch attempt = .err 429 st et ra)
    (h3 : slackFatal (slackRateLimitMsg ra) = false) :
    handleSlackGo fetch mr attempt attempts lastErr delays calls =
      handleSlackGo fetch mr (attempt + 1) attempt
        (some (slackRateLimitMsg ra)) (delays ++ [60000]) (calls + 1) := by
  rw [handleSlackGo]
  rw [dif_neg (by omega)]
  rw [h2, slackErrorMsg_429]
  simp only [h3, strIncludes_rateLimitMsg, if_true, if_pos h1,
    Bool.false_eq_true, if_false]

theorem retry_after_amended_witness :
    handleSlackGo (fun _ => FetchResp.err 429 "x" "" (some "5")) 3 1 0 none [] 0 =
      handleSlackGo (fun _ => FetchResp.err 429 "x" "" (some "5")) 3 2 1
        (some (slackRateLimitMsg (some "5"))) ([] ++ [60000]) (0 + 1) :=
  retry_after_amended (fun _ => FetchResp.err 429 "x" "" (some "5"))
    3 1 0 none [] 0 "x" "" (some "5") (by omega) rfl (by decide)

theorem handleSlackGo_calls_le (fetch : Nat → FetchResp) :
    ∀ (k mr attempt attempts : Nat) (lastErr : Option String)
      (delays : List Int) (calls : Nat), mr + 1 - attempt ≤ k →
      calls ≤ (handleSlackGo fetch mr attempt attempts lastErr delays calls).2.2 := by
  intro k
  induction k with
  | zero =>
    intro mr attempt attempts lastErr delays calls hk
    have hlt : mr < attempt := by omega
    rw [handleSlackGo, dif_pos hlt]
  | succ n ih =>
    intro mr attempt attempts lastErr delays calls hk
    rw [handleSlackGo]
    by_cases hlt : mr < attempt
    · rw [dif_pos hlt]
    · rw [dif_neg hlt]
      cases hm : slackErrorMsg (fetch attempt) with
      | none => simp
      | some m =>
        by_cases hf : slackFatal m = true
        · simp [hf]
        · by_cases ha : attempt < mr
          · simp only [hf, ha, if_true, if_false, Bool.false_eq_true]
            exact le_trans (by omega)
              (ih mr (attempt + 1) attempt (some m) _ (calls + 1) (by omega))
          · simp only [hf, ha, if_true, if_false, Bool.false_eq_true]
            exact le_trans (by omega)
              (ih mr (attempt + 1) attempt (some m) _ (calls + 1) (by omega))

theorem handleSlackGo_calls_pos (fetch : Nat → FetchResp) (mr : Nat)
    (h : 1 ≤ mr) : 1 ≤ (handleSlackGo fetch mr 1 0 none [] 0).2.2 := by
  rw [handleSlackGo, dif_neg (by omega)]
  cases hm : slackErrorMsg (fetch 1) with
  | none => simp
  | some m =>
    by_cases hf : slackFatal m = true
    · simp [hf]
    · by_cases ha : 1 < mr
      · simp only [hf, ha, if_true, if_false, Bool.false_eq_true]
        exact handleSlackGo_calls_le fetch (mr + 1) mr 2 1 (some m) _ 1 (by omega)
      · simp only [hf, ha, if_true, if_false, Bool.false_eq_true]
        exact handleSlackGo_calls_le fetch (mr + 1) mr 2 1 (some m) _ 1 (by omega)

/-- C8 (counterexample). The URL
`https://evil.example/a?x=slack.com` has host `evil.example`, which is not
in Slack's domain, yet it passes the handler's substring guard: the
handler performs an outbound call (and here succeeds) instead of failing
with a configuration error and no call. -/
theorem slack_url_guard_counterexample :
    hostInSlackDomain (urlHost "https://evil.example/a?x=slack.com") = false
    ∧ handleSlack (some "https://evil.example/a?x=slack.com") none
        (fun _ => FetchResp.ok) 3 = (Except.ok (), [], 1) := by
  constructor
  · decide
  · simp [handleSlack, jsOrStr, strStartsWith, strIncludes, handleSlackGo,
      slackErrorMsg]
    decide

/-- C8 (amended). The handler's guard is the substring check
`startsWith(https://) && includes(slack.com)`, not a host check: a URL
failing the substring check fails immediately with the configuration error
and no outbound call, and a URL passing it (with at least one attempt
configured) always reaches at least one outbound call - even when its host
is outside Slack's domain. -/
theorem slack_url_guard_amended (url : String) (fetch : Nat → FetchResp)
    (mr : Nat) (hne : url ≠ "") :
    ((strStartsWith url "https://" && strIncludes url "slack.com") = false →
        handleSlack (some url) none fetch mr =
          (.error ("Invalid Slack webhook URL format. Please provide a valid " ++
            "Slack webhook URL."), [], 0))
    ∧ ((strStartsWith url "https://" && strIncludes url "slack.com") = true →
        1 ≤ mr → 1 ≤ (handleSlack (some url) none fetch mr).2.2) := by
  have hj : jsOrStr (some url) none = some url := by simp [jsOrStr, hne]
  constructor
  · intro hguard
    have hor : strStartsWith url "https://" = false ∨
        strIncludes url "slack.com" = false := by
      cases hs : strStartsWith url "https://" <;>
        cases hi : strIncludes url "slack.com" <;> simp_all
    unfold handleSlack
    rw [hj]
    rcases hor with hcase | hcase <;> simp [hcase]
  · intro hguard hmr
    have hs : strStartsWith url "https://" = true :=
      (Bool.and_eq_true _ _ |>.mp hguard).1
    have hi : strIncludes url "slack.com" = true :=
      (Bool.and_eq_true _ _ |>.mp hguard).2
    unfold handleSlack
    rw [hj]
    simp only [hs, hi, Bool.false_eq_true, if_false, or_self]
    exact handleSlackGo_calls_pos fetch mr hmr

theorem slack_url_guard_amended_witness :
    ((strStartsWith "ftp://x" "https://" && strIncludes "ftp://x" "slack.com") = false →
        handleSlack (some "ftp://x") none (fun _ => FetchResp.ok) 3 =
          (.error ("Invalid Slack webhook URL format. Please provide a valid " ++
            "Slack webhook URL."), [], 0))
    ∧ ((strStartsWith "ftp://x" "https://" && strIncludes "ftp://x" "slack.com") = true →
        1 ≤ 3 → 1 ≤ (handleSlack (some "ftp://x") none (fun _ => FetchResp.ok) 3).2.2) :=
  slack_url_guard_amended "ftp://x" (fun _ => FetchResp.ok) 3 (by decide)

end FormConnector
